import Mathlib

/-!
Shallow embedding of `src/go/modules/shadertoyinterop.py` (shadertoy-arcana).

The module has two components:
* `ShadertoyRenderer` — frame rendering/sequencing and a shared-memory frame
  transport with a self-describing header
  (`create_numpy_view`, `render_to_shared_memory`, `render_frame_sequence`);
* `UpdatableChannelTexture` — a texture adapter with lazy GPU binding and an
  in-place `update` operation.

Bytes of the shared-memory block are modelled as natural numbers (`< 256` is
not enforced; none of the claims needs it).  Pixel-channel values are natural
numbers as well.  Python floats are modelled as rationals `ℚ` (the claims
about sequencing are arithmetic identities that hold of the real-number
reading of the code; rounding of IEEE floats is out of scope).  Python
exceptions are modelled with `Except` / explicit error components.
-/

namespace Shadertoy

/-- Numpy dtypes that appear in this module (`uint8` frames, `float32`
textures).  `create_numpy_view` accepts whatever `np.dtype` accepts; the
two used by this repository suffice for the claims. -/
inductive DTy where
  | uint8
  | float32
deriving DecidableEq, Repr

/-- `np.dtype(name).itemsize` for the modelled dtypes. -/
def DTy.itemsize : DTy → Nat
  | .uint8 => 1
  | .float32 => 4

/-- ASCII bytes of `"uint8"`. -/
def uint8Bytes : List Nat := [117, 105, 110, 116, 56]

/-- ASCII bytes of `"float32"`. -/
def float32Bytes : List Nat := [102, 108, 111, 97, 116, 51, 50]

/-- `bytes.decode('ascii').strip('\x00')` followed by the `np.dtype` name
lookup: strip NUL bytes from both ends, then match a known dtype name.
Non-ASCII bytes (≥ 128) make the decode fail, hence `none`. -/
def dtypeOfBytes (bs : List Nat) : Option DTy :=
  if bs.any (fun b => 128 ≤ b) then none
  else
    let stripped := ((bs.dropWhile (· = 0)).reverse.dropWhile (· = 0)).reverse
    if stripped = uint8Bytes then some .uint8
    else if stripped = float32Bytes then some .float32
    else none

/-- Little-endian unsigned 32-bit read at byte offset `off`
(`np.ndarray((…), dtype=np.uint32, buffer=…, offset=off)` on a
little-endian host). Out-of-range bytes read as 0; callers bound-check. -/
def readU32 (block : List Nat) (off : Nat) : Nat :=
  block.getD off 0 + 256 * block.getD (off + 1) 0 +
    65536 * block.getD (off + 2) 0 + 16777216 * block.getD (off + 3) 0

/-- The numpy array view returned by `create_numpy_view`: the declared
shape, the element dtype, the byte offset of the payload inside the block,
and the endianness marker byte. -/
structure NpView where
  shape : List Nat
  dtype : DTy
  offset : Nat
  endianness : Nat
deriving DecidableEq, Repr

/-- All multi-indices of a given shape, row-major.  The element count of a
numpy view of shape `s` is the number of such indices. -/
def enumIndices : List Nat → List (List Nat)
  | [] => [[]]
  | d :: ds => (List.range d).flatMap (fun i => (enumIndices ds).map (i :: ·))

/-- Number of elements of a view: the number of valid multi-indices of its
shape. -/
def NpView.elemCount (v : NpView) : Nat := (enumIndices v.shape).length

/-- `ShadertoyRenderer.create_numpy_view`: parse the self-describing header
of a shared-memory block —
rank (u32 at 0), shape (`rank` u32s from 4), dtype name (16 bytes at
`4+rank*4`), endianness marker (1 byte at `20+rank*4`) — and build a view
of the payload at offset `4 + rank*4 + 16 + 1`.  Failure cases (buffer too
small for a numpy view, unknown dtype name, non-ASCII bytes) return
`none` where the Python raises. -/
def create_numpy_view (block : List Nat) : Option NpView :=
  if block.length < 4 then none
  else
    let rank := readU32 block 0
    if block.length < 4 + 4 * rank then none
    else
      let shape := (List.range rank).map (fun i => readU32 block (4 + 4 * i))
      let dtypeBytes := (block.drop (4 + rank * 4)).take 16
      match dtypeOfBytes dtypeBytes with
      | none => none
      | some dty =>
        let endian := block.getD (20 + rank * 4) 0
        if 128 ≤ endian then none
        else
          let metadata_size := 4 + rank * 4 + 16 + 1
          if block.length < metadata_size + shape.prod * dty.itemsize then none
          else some ⟨shape, dty, metadata_size, endian⟩

/-! ### Frames and the channel reorder -/

/-- A rendered frame: rows of pixels of channel values
(shape `(height, width, 4)`, row-major). -/
abbrev Frame := List (List (List Nat))

/-- Well-formed frame of height `h`, width `w`, 4 channels per pixel. -/
def FrameWF (h w : Nat) (f : Frame) : Prop :=
  f.length = h ∧ ∀ row ∈ f, row.length = w ∧ ∀ p ∈ row, p.length = 4

/-- The fixed channel permutation `[2, 1, 0, 3]` applied to one pixel:
`frame_array[..., [2, 1, 0, 3]]` restricted to the trailing axis.  Output
channel `j` is input channel `[2,1,0,3][j]`. -/
def reorderPixel (p : List Nat) : List Nat :=
  [p.getD 2 0, p.getD 1 0, p.getD 0 0, p.getD 3 0]

/-- `frame_array[..., [2, 1, 0, 3]]`: the pixel permutation applied across
the whole frame. -/
def reorderChannels (f : Frame) : Frame :=
  f.map (fun row => row.map reorderPixel)

/-- The permutation `[2,1,0,3]` as a function on channel indices. -/
def chanPerm : Fin 4 → Fin 4
  | 0 => 2
  | 1 => 1
  | 2 => 0
  | 3 => 3

/-- Row-major byte serialization of a `uint8` frame (one byte per channel
value): the payload bytes a numpy array of shape `(h, w, 4)` occupies. -/
def serializeFrame (f : Frame) : List Nat := f.flatten.flatten

/-- Shape of a frame as numpy reports it, `(len, len of first row, 4)`. -/
def frameShape (f : Frame) : List Nat :=
  [f.length, (f.headD []).length, 4]

/-- Overwrite `count = payload.length` bytes of `block` starting at `off`
(the effect of `np.copyto` into a view at byte offset `off`). -/
def writeBytes (block : List Nat) (off : Nat) (payload : List Nat) : List Nat :=
  block.take off ++ payload ++ block.drop (off + payload.length)

/-- `ShadertoyRenderer.render_to_shared_memory` for a `uint8` block, given
the frame `f` the external renderer produced: reorder channels with
`[2,1,0,3]`, parse the block header with `create_numpy_view`, and copy the
reordered frame into the payload region.  `none` models the exceptions of
the Python code (malformed header, or `np.copyto` shape/dtype
incompatibility). -/
def render_to_shared_memory (f : Frame) (block : List Nat) : Option (List Nat) :=
  match create_numpy_view block with
  | none => none
  | some v =>
    let reordered := reorderChannels f
    if v.dtype = DTy.uint8 ∧ v.shape = frameShape reordered then
      some (writeBytes block v.offset (serializeFrame reordered))
    else none

/-! ### Frame sequencing -/

/-- A mouse position `(x, y, z, w)`. -/
abbrev Mouse := ℚ × ℚ × ℚ × ℚ

/-- The fixed neutral mouse position `(0.0, 0.0, 0.0, 0.0)`. -/
def neutralMouse : Mouse := (0, 0, 0, 0)

/-- The uniform parameters one `render_frame` call inside
`render_frame_sequence` receives. -/
structure FrameCall where
  time_float : ℚ
  time_delta : ℚ
  frame : Nat
  framerate : ℚ
  mouse_pos : Mouse
deriving DecidableEq, Repr

/-- Python `int()` applied to a (real-valued) number: truncation toward
zero. -/
def pyInt (q : ℚ) : ℤ := if 0 ≤ q then ⌊q⌋ else ⌈q⌉

/-- The `for i in range(...)` loop of `render_frame_sequence`: run `step`
on indices `i, i+1, …, i+m-1`, collecting results, stopping at the first
exception (modelled as `Except.error` carrying the offending index). -/
def seqLoop (step : Nat → Except Nat FrameCall) : Nat → Nat → Except Nat (List FrameCall)
  | _, 0 => .ok []
  | i, m + 1 =>
    match step i with
    | .error e => .error e
    | .ok a =>
      match seqLoop step (i + 1) m with
      | .error e => .error e
      | .ok as => .ok (a :: as)

/-- The body of the loop: `mouse_path[i] if mouse_path else (0,0,0,0)`
(Python truthiness: `None` and the empty list both select the default;
out-of-range indexing raises `IndexError`, modelled as `.error i`),
then the `render_frame` call with the per-frame uniforms. -/
def seqStep (start_time time_delta fps : ℚ) (mouse_path : Option (List Mouse))
    (i : Nat) : Except Nat FrameCall :=
  match mouse_path with
  | some l =>
    if l = [] then .ok ⟨start_time + i * time_delta, time_delta, i, fps, neutralMouse⟩
    else
      match l[i]? with
      | some m => .ok ⟨start_time + i * time_delta, time_delta, i, fps, m⟩
      | none => .error i
  | none => .ok ⟨start_time + i * time_delta, time_delta, i, fps, neutralMouse⟩

/-- `ShadertoyRenderer.render_frame_sequence`:
`frame_count = int((end_time - start_time) * fps)`, `time_delta = 1/fps`,
then one `render_frame` per `i in range(frame_count)` at time
`start_time + i * time_delta`.  Returns the list of per-frame uniform
parameter records (the external engine's pixels are out of scope), or the
index of the first `IndexError`. -/
def render_frame_sequence (start_time end_time fps : ℚ)
    (mouse_path : Option (List Mouse)) : Except Nat (List FrameCall) :=
  let frame_count := (pyInt ((end_time - start_time) * fps)).toNat
  let time_delta := 1 / fps
  seqLoop (seqStep start_time time_delta fps mouse_path) 0 frame_count

/-! ### Updatable channel texture adapter -/

/-- The three `wgpu.TextureFormat` values the module mentions. -/
inductive TexFormat where
  | rgba8unorm
  | rgba8uint
  | rgba32float
deriving DecidableEq, Repr

/-- A numpy pixel array with its dtype: rows of pixels of channel values. -/
structure NDArr where
  dty : DTy
  vals : List (List (List Nat))
deriving DecidableEq, Repr

/-- `arr.shape[0]` (height). -/
def NDArr.shape0 (a : NDArr) : Nat := a.vals.length

/-- `arr.shape[1]` (width, of the first row). -/
def NDArr.shape1 (a : NDArr) : Nat := (a.vals.headD []).length

/-- `np.ascontiguousarray(a[::-1, :, :])`: reverse the row order; the
contiguity copy is the identity on values. -/
def NDArr.flipV (a : NDArr) : NDArr := ⟨a.dty, a.vals.reverse⟩

/-- Python-side state of an `UpdatableChannelTexture`: the CPU data buffer
(`self.data`), the declared format (`self.format`), and the GPU texture
handle (`self._texture`, `none` until `bind_texture` runs). -/
structure UCT where
  data : NDArr
  format : TexFormat
  texture : Option Nat
deriving DecidableEq, Repr

/-- The GPU side: texture contents indexed by handle (the device's texture
store; `queue.write_texture` replaces the contents at a handle). -/
structure GPUState where
  texs : List NDArr
deriving DecidableEq, Repr

/-- Errors of the adapter. -/
inductive TexErr where
  | missingDataAndSize
  | notInitialized
  | sizeMismatch
deriving DecidableEq, Repr

/-- The buffer `UpdatableChannelTexture.__init__` synthesizes when `size`
is given: `np.zeros((h, w, 4), np.float32)` for `rgba32float`, else
`np.full((h, w, 4), 255, np.uint8)`. -/
def synthData (w h : Nat) (format : TexFormat) : NDArr :=
  if format = TexFormat.rgba32float then
    ⟨.float32, List.replicate h (List.replicate w (List.replicate 4 0))⟩
  else
    ⟨.uint8, List.replicate h (List.replicate w (List.replicate 4 255))⟩

/-- `UpdatableChannelTexture.__init__(data, size, format)`: raises
`ValueError` when both `data` and `size` are `None`; when `size` is given,
replaces `data` with the synthesized buffer; stores the format and sets
`self._texture = None`. -/
def mkUCT : Option NDArr → Option (Nat × Nat) → TexFormat → Except TexErr UCT
  | none, none, _ => .error .missingDataAndSize
  | _, some (w, h), format => .ok ⟨synthData w h format, format, none⟩
  | some d, none, format => .ok ⟨d, format, none⟩

/-- `Except.isOk` spelled out for the constructions above. -/
def excOk {ε α : Type} : Except ε α → Bool
  | .ok _ => true
  | .error _ => false

/-- `UpdatableChannelTexture.update(new_data)` run against adapter state
`uct` and device state `gpu`: raises (error component `some _`) before any
GPU write when the texture was never bound or when `new_data`'s
height/width differ from `self.data`'s; otherwise flips `new_data`
vertically and queues `write_texture` into the bound handle.  Returns the
Python-side state, the GPU state, and the raised error if any. -/
def update (uct : UCT) (gpu : GPUState) (new_data : NDArr) :
    UCT × GPUState × Option TexErr :=
  match uct.texture with
  | none => (uct, gpu, some .notInitialized)
  | some h =>
    if new_data.shape1 ≠ uct.data.shape1 ∨ new_data.shape0 ≠ uct.data.shape0 then
      (uct, gpu, some .sizeMismatch)
    else
      (uct, ⟨gpu.texs.set h new_data.flipV⟩, none)

/-- A freshly created GPU texture before any write; `create_texture` does
not specify contents, modelled as an empty array. -/
def blankTex : NDArr := ⟨.uint8, []⟩

/-- `UpdatableChannelTexture.bind_texture(device)`: on first call creates
the texture (a fresh handle in the device store) and stores it in
`self._texture`; on every call queues `write_texture` of `self.data` into
that handle (sampler creation and binding descriptors are out of scope). -/
def bind_texture (uct : UCT) (gpu : GPUState) : UCT × GPUState :=
  match uct.texture with
  | none =>
    let h := gpu.texs.length
    ({ uct with texture := some h }, ⟨(gpu.texs ++ [blankTex]).set h uct.data⟩)
  | some h => (uct, ⟨gpu.texs.set h uct.data⟩)

/-! ## Helper lemmas -/

theorem enumIndices_length (s : List Nat) : (enumIndices s).length = s.prod := by
  induction s with
  | nil => rfl
  | cons d ds ih =>
    simp only [enumIndices, List.length_flatMap, List.prod_cons]
    rw [List.map_congr_left (g := fun _ => ds.prod) (by simp [ih])]
    simp [List.map_const', List.sum_replicate, Nat.smul_one_eq_cast]

/-- Characterization of a successful `create_numpy_view` parse. -/
theorem create_numpy_view_eq (block : List Nat) (v : NpView)
    (hv : create_numpy_view block = some v) :
    v.shape = (List.range (readU32 block 0)).map (fun i => readU32 block (4 + 4 * i)) ∧
    dtypeOfBytes ((block.drop (4 + readU32 block 0 * 4)).take 16) = some v.dtype ∧
    v.offset = 4 + readU32 block 0 * 4 + 16 + 1 ∧
    v.endianness = block.getD (20 + readU32 block 0 * 4) 0 ∧
    v.offset + v.shape.prod * v.dtype.itemsize ≤ block.length := by
  simp only [create_numpy_view] at hv
  split at hv
  · exact absurd hv (by simp)
  · split at hv
    · exact absurd hv (by simp)
    · split at hv
      · exact absurd hv (by simp)
      · split at hv
        · exact absurd hv (by simp)
        · split at hv
          · exact absurd hv (by simp)
          · simp only [Option.some.injEq] at hv
            subst hv
            simp_all [Nat.mul_comm]

/-! ## C1 — header parsing: payload offset and element count -/

/-- C1: for every shared-memory block whose header parses successfully
(valid rank, shape, dtype, endianness), `create_numpy_view` computes the
payload offset as `4 + rank*4 + 16 + 1`, reads the 16-byte dtype field at
offset `4 + rank*4` and the endianness marker at `20 + rank*4`, and the
constructed view has element count `product(shape)` with element type the
declared dtype. -/
theorem C1_create_numpy_view_layout (block : List Nat) (v : NpView)
    (hv : create_numpy_view block = some v) :
    v.offset = 4 + readU32 block 0 * 4 + 16 + 1 ∧
    dtypeOfBytes ((block.drop (4 + readU32 block 0 * 4)).take 16) = some v.dtype ∧
    v.endianness = block.getD (20 + readU32 block 0 * 4) 0 ∧
    v.elemCount = v.shape.prod := by
  obtain ⟨_, h2, h3, h4, _⟩ := create_numpy_view_eq block v hv
  exact ⟨h3, h2, h4, enumIndices_length v.shape⟩

/-- Witness for C1: a concrete block with rank 1, shape `[2]`, dtype
`uint8`, little-endian marker `'<'` and a 2-byte payload. -/
theorem C1_witness :
    create_numpy_view
        [1, 0, 0, 0, 2, 0, 0, 0,
         117, 105, 110, 116, 56, 0, 0, 0, 0, 0, 0, 0, 0, 0, 0, 0,
         60, 7, 9] =
      some ⟨[2], DTy.uint8, 25, 60⟩ ∧
    (NpView.mk [2] DTy.uint8 25 60).offset = 4 + 1 * 4 + 16 + 1 ∧
    (NpView.mk [2] DTy.uint8 25 60).elemCount = 2 := by
  have hv : create_numpy_view
      [1, 0, 0, 0, 2, 0, 0, 0,
       117, 105, 110, 116, 56, 0, 0, 0, 0, 0, 0, 0, 0, 0, 0, 0,
       60, 7, 9] = some ⟨[2], DTy.uint8, 25, 60⟩ := by decide
  have H := C1_create_numpy_view_layout _ _ hv
  exact ⟨hv, by decide, by simpa using H.2.2.2⟩

/-! ## C9 — the channel reorder is the permutation [2,1,0,3], an involution -/

/-- C9: the channel reorder used by `render_to_shared_memory` is the fixed
permutation `[2,1,0,3]` of the trailing axis — output channel `j` holds the
input value at channel `chanPerm j`, with no value transformation — and on
frames whose pixels have 4 channels it is an involution. -/
theorem C9_reorder_involution (f : Frame)
    (hwf : ∀ row ∈ f, ∀ p ∈ row, p.length = 4) :
    (∀ row ∈ f, ∀ p ∈ row, ∀ j : Fin 4,
        (reorderPixel p).getD j 0 = p.getD (chanPerm j) 0) ∧
    reorderChannels (reorderChannels f) = f := by
  constructor
  · intro row _ p _ j
    fin_cases j <;> rfl
  · unfold reorderChannels
    rw [List.map_map]
    rw [List.map_congr_left (g := id) ?_, List.map_id]
    intro row hrow
    simp only [Function.comp_apply, List.map_map, id]
    rw [List.map_congr_left (g := id) ?_, List.map_id]
    intro p hp
    have hlen : p.length = 4 := (hwf row hrow) p hp
    match p, hlen with
    | [a, b, c, d], _ => rfl

/-- Witness for C9 at a concrete 1×2 frame. -/
theorem C9_witness :
    (reorderPixel [10, 20, 30, 40]).getD (0 : Fin 4) 0 = 30 ∧
    reorderChannels (reorderChannels [[[10, 20, 30, 40], [1, 2, 3, 4]]]) =
      [[[10, 20, 30, 40], [1, 2, 3, 4]]] := by
  have H := C9_reorder_involution [[[10, 20, 30, 40], [1, 2, 3, 4]]] (by decide)
  refine ⟨?_, H.2⟩
  have := H.1 [[10, 20, 30, 40], [1, 2, 3, 4]] (by decide) [10, 20, 30, 40] (by decide) 0
  simpa using this

/-! ## C2 — shared-memory write: payload contents, everything else preserved -/

theorem flatten_length_of_all (w : Nat) (row : List (List Nat))
    (h : ∀ p ∈ row, p.length = w) : row.flatten.length = row.length * w := by
  induction row with
  | nil => simp
  | cons p rest ih =>
    simp only [List.flatten_cons, List.length_append, List.length_cons,
      h p (by simp), ih (fun q hq => h q (by simp [hq]))]
    ring

theorem serializeFrame_length (w : Nat) (f : Frame)
    (hwf : ∀ row ∈ f, row.length = w ∧ ∀ p ∈ row, p.length = 4) :
    (serializeFrame f).length = f.length * w * 4 := by
  induction f with
  | nil => simp [serializeFrame]
  | cons row rest ih =>
    have hrow := hwf row (by simp)
    simp only [serializeFrame, List.flatten_cons, List.flatten_append,
      List.length_append, List.length_cons]
    rw [flatten_length_of_all 4 row hrow.2, hrow.1]
    have := ih (fun r hr => hwf r (by simp [hr]))
    simp only [serializeFrame] at this
    rw [this]
    ring

theorem reorderChannels_wf (h w : Nat) (f : Frame) (hwf : FrameWF h w f) :
    FrameWF h w (reorderChannels f) := by
  obtain ⟨hlen, hrow⟩ := hwf
  refine ⟨by simpa [reorderChannels] using hlen, ?_⟩
  intro row hr
  simp only [reorderChannels, List.mem_map] at hr
  obtain ⟨r, hrf, rfl⟩ := hr
  refine ⟨by simpa using (hrow r hrf).1, ?_⟩
  intro p hp
  simp only [List.mem_map] at hp
  obtain ⟨q, _, rfl⟩ := hp
  rfl

theorem frameShape_reorder (h w : Nat) (f : Frame) (hwf : FrameWF h w f)
    (hpos : 0 < h) : frameShape (reorderChannels f) = [h, w, 4] := by
  obtain ⟨hlen, hrow⟩ := hwf
  cases f with
  | nil => simp at hlen; omega
  | cons r rest =>
    simp only [frameShape, reorderChannels, List.map_cons, List.length_cons,
      List.headD_cons, List.length_map]
    have := (hrow r (by simp)).1
    simp_all

theorem writeBytes_length (block payload : List Nat) (off : Nat)
    (hle : off + payload.length ≤ block.length) :
    (writeBytes block off payload).length = block.length := by
  simp [writeBytes]
  omega

theorem writeBytes_getElem?_lt (block payload : List Nat) (off i : Nat)
    (hle : off + payload.length ≤ block.length) (hi : i < off) :
    (writeBytes block off payload)[i]? = block[i]? := by
  have hoff : (block.take off).length = off := by
    simp only [List.length_take]
    omega
  simp only [writeBytes, List.append_assoc, List.getElem?_append, hoff, hi,
    if_pos]
  exact List.getElem?_take_of_lt hi

theorem writeBytes_getElem?_ge (block payload : List Nat) (off i : Nat)
    (hle : off + payload.length ≤ block.length)
    (hi : off + payload.length ≤ i) :
    (writeBytes block off payload)[i]? = block[i]? := by
  have hoff : (block.take off).length = off := by
    simp only [List.length_take]
    omega
  simp only [writeBytes, List.append_assoc, List.getElem?_append, hoff,
    List.length_append]
  rw [if_neg (by omega), if_neg (by omega), List.getElem?_drop]
  congr 1
  omega

theorem writeBytes_getElem?_payload (block payload : List Nat) (off j : Nat)
    (hoffle : off ≤ block.length) (hj : j < payload.length) :
    (writeBytes block off payload)[off + j]? = payload[j]? := by
  have hoff : (block.take off).length = off := by
    simp only [List.length_take]
    omega
  simp only [writeBytes, List.append_assoc, List.getElem?_append, hoff]
  rw [if_neg (by omega), if_pos (by omega)]
  congr 1
  omega

/-- C2: for a block whose header parses to a `uint8` view whose declared
shape matches the rendered frame, `render_to_shared_memory` succeeds and
the resulting block holds the `[2,1,0,3]`-reordered frame, serialized
row-major, exactly in the payload region `[offset, offset + h*w*4)`;
every byte before the payload (the whole header: rank, shape dims, dtype
field, endianness marker) and every byte after it is unchanged, and the
block's length is unchanged. -/
theorem C2_render_to_shared_memory_payload (f : Frame) (block : List Nat)
    (v : NpView) (h w : Nat)
    (hv : create_numpy_view block = some v)
    (hdty : v.dtype = DTy.uint8)
    (hsh : v.shape = [h, w, 4])
    (hwf : FrameWF h w f)
    (hpos : 0 < h) :
    render_to_shared_memory f block =
      some (writeBytes block v.offset (serializeFrame (reorderChannels f))) ∧
    (writeBytes block v.offset (serializeFrame (reorderChannels f))).length =
      block.length ∧
    (∀ i, i < v.offset →
      (writeBytes block v.offset (serializeFrame (reorderChannels f)))[i]? =
        block[i]?) ∧
    (∀ i, v.offset + h * w * 4 ≤ i →
      (writeBytes block v.offset (serializeFrame (reorderChannels f)))[i]? =
        block[i]?) ∧
    (∀ j, j < h * w * 4 →
      (writeBytes block v.offset (serializeFrame (reorderChannels f)))[v.offset + j]? =
        (serializeFrame (reorderChannels f))[j]?) := by
  have hwf' := reorderChannels_wf h w f hwf
  have hplen : (serializeFrame (reorderChannels f)).length = h * w * 4 := by
    rw [serializeFrame_length w _ (fun r hr => (hwf'.2 r hr))]
    rw [hwf'.1]
  have hbound := (create_numpy_view_eq block v hv).2.2.2.2
  rw [hsh, hdty] at hbound
  simp only [DTy.itemsize, List.prod_cons, List.prod_nil, Nat.mul_one] at hbound
  have hle : v.offset + (serializeFrame (reorderChannels f)).length ≤ block.length := by
    rw [hplen, Nat.mul_assoc]; omega
  refine ⟨?_, ?_, ?_, ?_, ?_⟩
  · simp only [render_to_shared_memory, hv]
    rw [if_pos ⟨hdty, by rw [hsh, frameShape_reorder h w f hwf hpos]⟩]
  · exact writeBytes_length _ _ _ hle
  · intro i hi
    exact writeBytes_getElem?_lt _ _ _ _ hle hi
  · intro i hi
    refine writeBytes_getElem?_ge _ _ _ _ hle ?_
    omega
  · intro j hj
    refine writeBytes_getElem?_payload _ _ _ _ (by omega) ?_
    omega

/-- Witness for C2: a rank-3 block declaring shape `(1, 1, 4)`, dtype
`uint8`, and a 1×1 frame `[[[9, 8, 7, 6]]]` (payload becomes
`[7, 8, 9, 6]`; the 33 header bytes survive untouched). -/
theorem C2_witness :
    render_to_shared_memory [[[9, 8, 7, 6]]]
        [3, 0, 0, 0, 1, 0, 0, 0, 1, 0, 0, 0, 4, 0, 0, 0,
         117, 105, 110, 116, 56, 0, 0, 0, 0, 0, 0, 0, 0, 0, 0, 0,
         60, 1, 2, 3, 4] =
      some [3, 0, 0, 0, 1, 0, 0, 0, 1, 0, 0, 0, 4, 0, 0, 0,
            117, 105, 110, 116, 56, 0, 0, 0, 0, 0, 0, 0, 0, 0, 0, 0,
            60, 7, 8, 9, 6] ∧
    [3, 0, 0, 0, 1, 0, 0, 0, 1, 0, 0, 0, 4, 0, 0, 0,
     117, 105, 110, 116, 56, 0, 0, 0, 0, 0, 0, 0, 0, 0, 0, 0,
     60, 7, 8, 9, 6][0]? =
      [3, 0, 0, 0, 1, 0, 0, 0, 1, 0, 0, 0, 4, 0, 0, 0,
       117, 105, 110, 116, 56, 0, 0, 0, 0, 0, 0, 0, 0, 0, 0, 0,
       60, 1, 2, 3, 4][0]? := by
  have hv : create_numpy_view
      [3, 0, 0, 0, 1, 0, 0, 0, 1, 0, 0, 0, 4, 0, 0, 0,
       117, 105, 110, 116, 56, 0, 0, 0, 0, 0, 0, 0, 0, 0, 0, 0,
       60, 1, 2, 3, 4] = some ⟨[1, 1, 4], DTy.uint8, 33, 60⟩ := by decide
  have H := C2_render_to_shared_memory_payload [[[9, 8, 7, 6]]] _ _ 1 1 hv rfl
    rfl (by unfold FrameWF; decide) (by decide)
  refine ⟨?_, by decide⟩
  rw [H.1]
  decide

/-! ## C3, C4 — frame sequencing -/

theorem seqLoop_ok (step : Nat → Except Nat FrameCall) (g : Nat → FrameCall) :
    ∀ (m i : Nat), (∀ j, i ≤ j → j < i + m → step j = .ok (g j)) →
    seqLoop step i m = .ok ((List.range' i m).map g) := by
  intro m
  induction m with
  | zero => intro i _; rfl
  | succ m ih =>
    intro i h
    have h0 : step i = .ok (g i) := h i le_rfl (by omega)
    simp only [seqLoop, h0]
    rw [ih (i + 1) (fun j hj1 hj2 => h j (by omega) (by omega))]
    simp [List.range']

theorem seqLoop_err (step : Nat → Except Nat FrameCall) :
    ∀ (m i k : Nat), i ≤ k → k < i + m →
    (∀ j, i ≤ j → j < k → ∃ a, step j = .ok a) → step k = .error k →
    seqLoop step i m = .error k := by
  intro m
  induction m with
  | zero => intro i k h1 h2 _ _; omega
  | succ m ih =>
    intro i k h1 h2 hok herr
    rcases Nat.eq_or_lt_of_le h1 with rfl | hik
    · simp only [seqLoop, herr]
    · obtain ⟨a, ha⟩ := hok i le_rfl hik
      simp only [seqLoop, ha]
      rw [ih (i + 1) k (by omega) (by omega)
        (fun j hj1 hj2 => hok j (by omega) hj2) herr]

/-- C3 (amended): for every `start_time ≤ end_time` and positive `fps`,
`render_frame_sequence` produces exactly `⌊(end_time - start_time) * fps⌋`
frames (for a nonnegative duration Python's `int()` truncation agrees with
`floor`); frame `i` carries time `start_time + i * (1/fps)`, time delta
`1/fps`, frame index `i`, framerate `fps`, and mouse position
`mouse_path[i]` when a (non-empty, long enough) `mouse_path` is supplied,
else the fixed neutral position. -/
theorem C3_render_frame_sequence_amended (s e fps : ℚ) (hfps : 0 < fps)
    (hse : s ≤ e) :
    pyInt ((e - s) * fps) = ⌊(e - s) * fps⌋ ∧
    render_frame_sequence s e fps none =
      .ok ((List.range (⌊(e - s) * fps⌋).toNat).map
        (fun i : Nat => ⟨s + (i : ℚ) * (1 / fps), 1 / fps, i, fps, neutralMouse⟩)) ∧
    (∀ mp : List Mouse, mp ≠ [] → (⌊(e - s) * fps⌋).toNat ≤ mp.length →
      render_frame_sequence s e fps (some mp) =
        .ok ((List.range (⌊(e - s) * fps⌋).toNat).map
          (fun i : Nat => ⟨s + (i : ℚ) * (1 / fps), 1 / fps, i, fps,
            mp.getD i neutralMouse⟩))) := by
  have hq : (0 : ℚ) ≤ (e - s) * fps := mul_nonneg (by linarith) (le_of_lt hfps)
  have hpy : pyInt ((e - s) * fps) = ⌊(e - s) * fps⌋ := if_pos hq
  refine ⟨hpy, ?_, ?_⟩
  · simp only [render_frame_sequence, hpy]
    rw [seqLoop_ok (seqStep s (1 / fps) fps none)
      (fun i : Nat => ⟨s + (i : ℚ) * (1 / fps), 1 / fps, i, fps,
        neutralMouse⟩) _ 0 (fun j _ _ => rfl)]
    rw [List.range_eq_range']
  · intro mp hne hlen
    simp only [render_frame_sequence, hpy]
    rw [seqLoop_ok (seqStep s (1 / fps) fps (some mp))
      (fun i : Nat => ⟨s + (i : ℚ) * (1 / fps), 1 / fps, i, fps,
        mp.getD i neutralMouse⟩) _ 0 ?_]
    · rw [List.range_eq_range']
    · intro j _ hj
      simp only [seqStep, if_neg hne]
      have hjlen : j < mp.length := by omega
      rw [List.getElem?_eq_getElem hjlen, List.getD_eq_getElem _ _ hjlen]

/-- Counterexample to C3 as stated: at `start_time = 1/2`,
`end_time = 0`, `fps = 1` the claimed frame count is
`⌊(0 - 1/2) * 1⌋ = -1`, but the call returns successfully with zero
frames (`int()` truncates toward zero and `range` clamps at 0). -/
theorem C3_counterexample :
    render_frame_sequence (1 / 2) 0 1 none = .ok [] ∧
    ⌊((0 : ℚ) - 1 / 2) * 1⌋ = -1 ∧
    (([] : List FrameCall).length : ℤ) ≠ ⌊((0 : ℚ) - 1 / 2) * 1⌋ := by
  refine ⟨?_, ?_, ?_⟩
  · have hc : (pyInt (((0 : ℚ) - 1 / 2) * 1)).toNat = 0 := by
      unfold pyInt
      rw [if_neg (by norm_num)]
      have h0 : ⌈(((0 : ℚ) - 1 / 2) * 1)⌉ = 0 := by
        rw [Int.ceil_eq_iff]; norm_num
      rw [h0]
      rfl
    simp only [render_frame_sequence, hc]
    rfl
  · rw [Int.floor_eq_iff]; norm_num
  · have h1 : ⌊((0 : ℚ) - 1 / 2) * 1⌋ = -1 := by
      rw [Int.floor_eq_iff]; norm_num
    rw [h1]
    decide

/-- C4 (amended): when a **non-empty** `mouse_path` shorter than the
computed frame count is supplied, `render_frame_sequence` fails with an
out-of-range access at the first missing index, `len(mouse_path)`. -/
theorem C4_short_mouse_path_amended (s e fps : ℚ) (mp : List Mouse)
    (hne : mp ≠ [])
    (hlt : mp.length < (pyInt ((e - s) * fps)).toNat) :
    render_frame_sequence s e fps (some mp) = .error mp.length := by
  simp only [render_frame_sequence]
  refine seqLoop_err _ _ 0 mp.length (by omega) (by omega) ?_ ?_
  · intro j _ hj
    refine ⟨⟨s + (j : ℚ) * (1 / fps), 1 / fps, j, fps, mp.getD j neutralMouse⟩, ?_⟩
    simp only [seqStep, if_neg hne]
    rw [List.getElem?_eq_getElem hj, List.getD_eq_getElem _ _ hj]
  · simp only [seqStep, if_neg hne]
    rw [List.getElem?_eq_none (le_refl _)]

/-- Counterexample to C4 as stated: `mouse_path = []` is provided and is
strictly shorter than the frame count 1, yet the call completes and
substitutes the neutral default — the empty list is falsy in Python, so
the `mouse_path[i] if mouse_path else …` conditional never indexes it. -/
theorem C4_counterexample :
    ([] : List Mouse).length < (pyInt (((1 : ℚ) - 0) * 1)).toNat ∧
    render_frame_sequence 0 1 1 (some []) =
      .ok [⟨0, 1, 0, 1, neutralMouse⟩] := by
  have hc : (pyInt (((1 : ℚ) - 0) * 1)).toNat = 1 := by
    unfold pyInt
    rw [if_pos (by norm_num)]
    have h : ⌊(((1 : ℚ) - 0) * 1)⌋ = 1 := by norm_num
    rw [h]
    rfl
  constructor
  · rw [hc]
    decide
  · simp only [render_frame_sequence, hc]
    simp [seqLoop, seqStep]

/-- Witness for the amended C3 at `render_frame_sequence(0.0, 1.0, 30.0)`:
exactly 30 frames, frame `i` at time `i * (1/30)` with delta `1/30`. -/
theorem C3_witness :
    render_frame_sequence 0 1 30 none =
      .ok ((List.range 30).map
        (fun i : Nat => ⟨(i : ℚ) * (1 / 30), 1 / 30, i, 30, neutralMouse⟩)) := by
  have H := (C3_render_frame_sequence_amended 0 1 30 (by norm_num)
    (by norm_num)).2.1
  have h30 : (⌊(((1 : ℚ) - 0) * 30)⌋).toNat = 30 := by
    have h : ⌊(((1 : ℚ) - 0) * 30)⌋ = 30 := by norm_num
    rw [h]
    rfl
  rw [h30] at H
  simpa using H

/-- Witness for the amended C4: a single-entry mouse path against a
2-frame sequence fails with index 1. -/
theorem C4_witness :
    render_frame_sequence 0 1 2 (some [neutralMouse]) = .error 1 := by
  have h2 : (pyInt (((1 : ℚ) - 0) * 2)).toNat = 2 := by
    unfold pyInt
    rw [if_pos (by norm_num)]
    have h : ⌊(((1 : ℚ) - 0) * 2)⌋ = 2 := by norm_num
    rw [h]
    rfl
  exact C4_short_mouse_path_amended 0 1 2 [neutralMouse] (by simp)
    (by rw [h2]; decide)

/-! ## C5–C8, C10 — texture adapter -/

/-- C5: `update(new_data)` raises an error iff the adapter has never been
bound (`self._texture is None`, the not-yet-initialized error) or
`new_data`'s width/height differ from the adapter's declared size (the
size-mismatch error); in every error case both the Python-side state and
the GPU state are unchanged (no GPU write happens before the raise). -/
theorem C5_update_errors (uct : UCT) (gpu : GPUState) (nd : NDArr) :
    ((update uct gpu nd).2.2 ≠ none ↔
      uct.texture = none ∨ nd.shape1 ≠ uct.data.shape1 ∨
        nd.shape0 ≠ uct.data.shape0) ∧
    (uct.texture = none → (update uct gpu nd).2.2 = some TexErr.notInitialized) ∧
    (∀ h, uct.texture = some h →
      (nd.shape1 ≠ uct.data.shape1 ∨ nd.shape0 ≠ uct.data.shape0) →
      (update uct gpu nd).2.2 = some TexErr.sizeMismatch) ∧
    ((update uct gpu nd).2.2 ≠ none →
      (update uct gpu nd).1 = uct ∧ (update uct gpu nd).2.1 = gpu) := by
  cases htex : uct.texture with
  | none =>
    refine ⟨by simp [update, htex], fun _ => by simp [update, htex], ?_, ?_⟩
    · intro h hcontra
      exact absurd hcontra (by simp)
    · intro _
      simp [update, htex]
  | some hdl =>
    by_cases hm : nd.shape1 ≠ uct.data.shape1 ∨ nd.shape0 ≠ uct.data.shape0
    · have hupd : update uct gpu nd = (uct, gpu, some TexErr.sizeMismatch) := by
        simp only [update, htex, if_pos hm]
      refine ⟨?_, ?_, ?_, ?_⟩
      · rw [hupd]
        exact ⟨fun _ => Or.inr hm, fun _ => by simp⟩
      · intro hcontra
        exact absurd hcontra (by simp)
      · intro h _ _
        rw [hupd]
      · intro _
        rw [hupd]
        exact ⟨rfl, rfl⟩
    · have hupd : update uct gpu nd = (uct, ⟨gpu.texs.set hdl nd.flipV⟩, none) := by
        simp only [update, htex, if_neg hm]
      push_neg at hm
      refine ⟨?_, ?_, ?_, ?_⟩
      · rw [hupd]
        simp [hm.1, hm.2]
      · intro hcontra
        exact absurd hcontra (by simp)
      · intro h _ hmm
        rcases hmm with hmm | hmm
        · exact absurd hm.1 hmm
        · exact absurd hm.2 hmm
      · intro hcontra
        rw [hupd] at hcontra
        exact absurd rfl hcontra

/-- Witness for C5: updating a freshly constructed, never-bound adapter
fails with the not-yet-initialized error and mutates nothing. -/
theorem C5_witness :
    (update ⟨⟨.uint8, [[[1, 2, 3, 4]]]⟩, .rgba8unorm, none⟩ ⟨[]⟩
        ⟨.uint8, [[[0, 0, 0, 0]]]⟩).2.2 = some TexErr.notInitialized ∧
    (update ⟨⟨.uint8, [[[1, 2, 3, 4]]]⟩, .rgba8unorm, none⟩ ⟨[]⟩
        ⟨.uint8, [[[0, 0, 0, 0]]]⟩).1 =
      ⟨⟨.uint8, [[[1, 2, 3, 4]]]⟩, .rgba8unorm, none⟩ ∧
    (update ⟨⟨.uint8, [[[1, 2, 3, 4]]]⟩, .rgba8unorm, none⟩ ⟨[]⟩
        ⟨.uint8, [[[0, 0, 0, 0]]]⟩).2.1 = ⟨[]⟩ := by
  have H := C5_update_errors ⟨⟨.uint8, [[[1, 2, 3, 4]]]⟩, .rgba8unorm, none⟩
    ⟨[]⟩ ⟨.uint8, [[[0, 0, 0, 0]]]⟩
  have herr := H.2.1 rfl
  have hne := H.2.2.2 (by rw [herr]; simp)
  exact ⟨herr, hne.1, hne.2⟩

/-- C6: on a bound adapter with size-matching `new_data`, `update`
succeeds (no error), the GPU texture at the bound handle now holds
`new_data` with its row order reversed (vertically flipped), replacing the
prior contents, and the adapter stays bound to the same handle. -/
theorem C6_update_success (uct : UCT) (gpu : GPUState) (nd : NDArr) (h : Nat)
    (htex : uct.texture = some h) (hlt : h < gpu.texs.length)
    (h1 : nd.shape1 = uct.data.shape1) (h0 : nd.shape0 = uct.data.shape0) :
    update uct gpu nd = (uct, ⟨gpu.texs.set h nd.flipV⟩, none) ∧
    (gpu.texs.set h nd.flipV)[h]? = some ⟨nd.dty, nd.vals.reverse⟩ ∧
    (update uct gpu nd).1.texture = some h := by
  have hmain : update uct gpu nd = (uct, ⟨gpu.texs.set h nd.flipV⟩, none) := by
    simp only [update, htex]
    rw [if_neg (by push_neg; exact ⟨h1, h0⟩)]
  refine ⟨hmain, ?_, by rw [hmain]; exact htex⟩
  rw [List.getElem?_set_self hlt]
  rfl

/-- Witness for C6: a bound 1×2 adapter updated with matching-size data;
the GPU content is the vertically flipped input. -/
theorem C6_witness :
    update ⟨⟨.uint8, [[[1, 1, 1, 1]], [[2, 2, 2, 2]]]⟩, .rgba8unorm, some 0⟩
        ⟨[blankTex]⟩ ⟨.uint8, [[[5, 5, 5, 5]], [[6, 6, 6, 6]]]⟩ =
      (⟨⟨.uint8, [[[1, 1, 1, 1]], [[2, 2, 2, 2]]]⟩, .rgba8unorm, some 0⟩,
        ⟨[⟨.uint8, [[[6, 6, 6, 6]], [[5, 5, 5, 5]]]⟩]⟩, none) := by
  have H := C6_update_success
    ⟨⟨.uint8, [[[1, 1, 1, 1]], [[2, 2, 2, 2]]]⟩, .rgba8unorm, some 0⟩
    ⟨[blankTex]⟩ ⟨.uint8, [[[5, 5, 5, 5]], [[6, 6, 6, 6]]]⟩ 0 rfl
    (by decide) rfl rfl
  rw [H.1]
  decide

/-- C7: construction fails fast (with `ValueError`) exactly when neither
`data` nor `size` is supplied, and succeeds when exactly one of them is
supplied. -/
theorem C7_construction_requires_one (fmt : TexFormat) (d : NDArr)
    (sz : Nat × Nat) :
    mkUCT none none fmt = .error TexErr.missingDataAndSize ∧
    excOk (mkUCT none none fmt) = false ∧
    excOk (mkUCT (some d) none fmt) = true ∧
    excOk (mkUCT none (some sz) fmt) = true := by
  refine ⟨rfl, rfl, rfl, ?_⟩
  rcases sz with ⟨w, h⟩
  rfl

/-- C8: constructing with `size = (w, h)` synthesizes a buffer of shape
`(h, w, 4)` — all zeros with dtype `float32` when `rgba32float` is
requested, otherwise (including the default `rgba8unorm`) filled with 255
as unsigned 8-bit. -/
theorem C8_size_buffer_synthesis (w h : Nat) (fmt : TexFormat) :
    mkUCT none (some (w, h)) fmt = .ok ⟨synthData w h fmt, fmt, none⟩ ∧
    (synthData w h fmt).dty =
      (if fmt = TexFormat.rgba32float then DTy.float32 else DTy.uint8) ∧
    (synthData w h fmt).vals.length = h ∧
    (∀ row ∈ (synthData w h fmt).vals, row.length = w ∧
      ∀ p ∈ row, p.length = 4 ∧
        ∀ x ∈ p, x = (if fmt = TexFormat.rgba32float then 0 else 255)) := by
  refine ⟨rfl, ?_, ?_, ?_⟩
  · by_cases hf : fmt = TexFormat.rgba32float
    · simp [synthData, hf]
    · simp [synthData, hf]
  · by_cases hf : fmt = TexFormat.rgba32float
    · simp [synthData, hf]
    · simp [synthData, hf]
  · intro row hrow
    by_cases hf : fmt = TexFormat.rgba32float
    · simp only [synthData, if_pos hf] at hrow
      rw [List.eq_of_mem_replicate hrow]
      refine ⟨by simp, ?_⟩
      intro p hp
      rw [List.eq_of_mem_replicate hp]
      refine ⟨by simp, ?_⟩
      intro x hx
      rw [List.eq_of_mem_replicate hx, if_pos hf]
    · simp only [synthData, if_neg hf] at hrow
      rw [List.eq_of_mem_replicate hrow]
      refine ⟨by simp, ?_⟩
      intro p hp
      rw [List.eq_of_mem_replicate hp]
      refine ⟨by simp, ?_⟩
      intro x hx
      rw [List.eq_of_mem_replicate hx, if_neg hf]

/-- Witness for C8 at `size = (2, 1)` and the default format: a 1×2×4
buffer of 255s. -/
theorem C8_witness :
    mkUCT none (some (2, 1)) TexFormat.rgba8unorm =
      .ok ⟨⟨DTy.uint8, [[[255, 255, 255, 255], [255, 255, 255, 255]]]⟩,
        TexFormat.rgba8unorm, none⟩ ∧
    (synthData 2 1 TexFormat.rgba8unorm).vals.length = 1 ∧
    [[255, 255, 255, 255], [255, 255, 255, 255]].length = 2 := by
  have H := C8_size_buffer_synthesis 2 1 TexFormat.rgba8unorm
  refine ⟨?_, H.2.2.1, ?_⟩
  · rw [H.1]
    rfl
  · exact (H.2.2.2 [[255, 255, 255, 255], [255, 255, 255, 255]] (by decide)).1

/-- C10: a successful `update` leaves every Python-side attribute of the
adapter — `self.data`, `self.format`, `self._texture` — unchanged; its
only effect is the GPU write of the flipped data.  A later `bind_texture`
call therefore re-uploads the pre-update CPU-side buffer `self.data` into
the same handle, overwriting what `update` wrote. -/
theorem C10_update_then_bind (uct : UCT) (gpu : GPUState) (nd : NDArr)
    (h : Nat) (htex : uct.texture = some h) (hlt : h < gpu.texs.length)
    (hok : (update uct gpu nd).2.2 = none) :
    (update uct gpu nd).1 = uct ∧
    (update uct gpu nd).1.data = uct.data ∧
    (update uct gpu nd).1.format = uct.format ∧
    (update uct gpu nd).1.texture = uct.texture ∧
    (update uct gpu nd).2.1 = ⟨gpu.texs.set h nd.flipV⟩ ∧
    bind_texture (update uct gpu nd).1 (update uct gpu nd).2.1 =
      (uct, ⟨(gpu.texs.set h nd.flipV).set h uct.data⟩) ∧
    ((gpu.texs.set h nd.flipV).set h uct.data)[h]? = some uct.data := by
  have hcond : ¬(nd.shape1 ≠ uct.data.shape1 ∨ nd.shape0 ≠ uct.data.shape0) := by
    intro hc
    simp [update, htex, if_pos hc] at hok
  have hmain : update uct gpu nd = (uct, ⟨gpu.texs.set h nd.flipV⟩, none) := by
    simp only [update, htex, if_neg hcond]
  rw [hmain]
  refine ⟨rfl, rfl, rfl, rfl, rfl, ?_, ?_⟩
  · simp only [bind_texture, htex]
  · rw [List.getElem?_set_self (by simpa using hlt)]

/-- Witness for C10: a bound 1×1 adapter; after a successful `update` the
Python state is unchanged, and a subsequent `bind_texture` overwrites the
GPU texture with the pre-update CPU buffer. -/
theorem C10_witness :
    (update ⟨⟨.uint8, [[[3, 3, 3, 3]]]⟩, .rgba8uint, some 0⟩
        ⟨[⟨.uint8, [[[9, 9, 9, 9]]]⟩]⟩ ⟨.uint8, [[[7, 7, 7, 7]]]⟩).1 =
      ⟨⟨.uint8, [[[3, 3, 3, 3]]]⟩, .rgba8uint, some 0⟩ ∧
    bind_texture
        (update ⟨⟨.uint8, [[[3, 3, 3, 3]]]⟩, .rgba8uint, some 0⟩
          ⟨[⟨.uint8, [[[9, 9, 9, 9]]]⟩]⟩ ⟨.uint8, [[[7, 7, 7, 7]]]⟩).1
        (update ⟨⟨.uint8, [[[3, 3, 3, 3]]]⟩, .rgba8uint, some 0⟩
          ⟨[⟨.uint8, [[[9, 9, 9, 9]]]⟩]⟩ ⟨.uint8, [[[7, 7, 7, 7]]]⟩).2.1 =
      (⟨⟨.uint8, [[[3, 3, 3, 3]]]⟩, .rgba8uint, some 0⟩,
        ⟨[⟨.uint8, [[[3, 3, 3, 3]]]⟩]⟩) := by
  have H := C10_update_then_bind
    ⟨⟨.uint8, [[[3, 3, 3, 3]]]⟩, .rgba8uint, some 0⟩
    ⟨[⟨.uint8, [[[9, 9, 9, 9]]]⟩]⟩ ⟨.uint8, [[[7, 7, 7, 7]]]⟩ 0 rfl
    (by decide) (by decide)
  refine ⟨H.1, ?_⟩
  rw [H.2.2.2.2.2.1]
  decide

end Shadertoy
